import Mathlib

/-!
Verification of the etos-api execution-space provider against its
natural-language specification.  The Go sources under pkg/executionspace,
internal/executionspace, internal/database/etcd, internal/rabbitmq and the
SSE handlers are shallowly embedded below: pure structures mirror the Go
structs, stateful code threads an explicit key-value store, and external
collaborators (the Kubernetes API, the AMQP broker, the event repository)
are modelled as oracles describing the outcome of each round trip.
-/

instance {ε α : Type} [DecidableEq ε] [DecidableEq α] : DecidableEq (Except ε α) := by
  intro a b
  cases a <;> cases b
  case error.error e f =>
    exact if h : e = f then isTrue (by rw [h]) else isFalse (by simp [h])
  case error.ok e x => exact isFalse (by simp)
  case ok.error x e => exact isFalse (by simp)
  case ok.ok x y =>
    exact if h : x = y then isTrue (by rw [h]) else isFalse (by simp [h])

/-- Model of github.com/google/uuid UUID values.  Only the operations the
repository uses are modelled: generation (supplied by oracles), rendering
to a string, and parsing (returning the zero UUID together with an error
on malformed input, as the Go API does). -/
structure UUID where
  val : Nat
deriving DecidableEq, Repr

/-- The zero value uuid.Nil. -/
def UUID.nil : UUID := ⟨0⟩

/-- Model of UUID.String().  The rendering is injective, which is the only
property of the textual form the repository relies on. -/
def uuidToString (u : UUID) : String := toString u.val

/-- The numeric value of one decimal digit character. -/
def digitVal (c : Char) : Option Nat :=
  if c.isDigit then some (c.toNat - 48) else none

/-- A non-empty all-digit character run read as a decimal number. -/
def parseNatDigits (cs : List Char) : Option Nat :=
  match cs with
  | [] => none
  | _ =>
    cs.foldl
      (fun acc c =>
        match acc, digitVal c with
        | some a, some d => some (a * 10 + d)
        | _, _ => none)
      (some 0)

/-- Model of uuid.Parse: some parsed value on well-formed input, none on
malformed input (Go returns the zero UUID plus a non-nil error there). -/
def uuidParse (s : String) : Option UUID := (parseNatDigits s.toList).map UUID.mk

/-- Go map[string]string modelled as an association list; a later set
shadows earlier bindings. -/
def mapSet (m : List (String × String)) (k v : String) : List (String × String) :=
  (k, v) :: m

/-- Lookup in the association-list model of a Go map. -/
def mapGet (m : List (String × String)) (k : String) : Option String :=
  m.lookup k

theorem mapGet_set_eq (m : List (String × String)) (k v : String) :
    mapGet (mapSet m k v) k = some v := by
  simp [mapGet, mapSet, List.lookup]

theorem mapGet_set_ne (m : List (String × String)) (k j v : String) (h : k ≠ j) :
    mapGet (mapSet m j v) k = mapGet m k := by
  have hb : (k == j) = false := beq_eq_false_iff_ne.mpr h
  simp [mapGet, mapSet, List.lookup, hb]

/-- pkg/executionspace/executionspace.Request (the callback contract). -/
structure Request where
  url : String
  method : String
  dataId : UUID
  headers : List (String × String)
  timeout : Nat
deriving DecidableEq, Repr

/-- pkg/executionspace/executionspace.Instructions. -/
structure Instructions where
  image : String
  environment : List (String × String)
  parameters : List (String × String)
  identifier : UUID
deriving DecidableEq, Repr

/-- pkg/executionspace/executionspace.ExecutorSpec. -/
structure ExecutorSpec where
  request : Request
  instructions : Instructions
  id : UUID
  buildId : String
deriving DecidableEq, Repr

/-- The EXECUTOR_HTTPS_PROXY / EXECUTOR_HTTP_PROXY / EXECUTOR_NO_PROXY /
EXECUTOR_TZ process environment read by NewExecutorSpec ("" = unset). -/
structure EnvVars where
  httpsProxy : String
  httpProxy : String
  noProxy : String
  tz : String
deriving DecidableEq, Repr

/-- The environment map built by NewExecutorSpec: the caller's map with
ENVIRONMENT_ID bound to the spec id, then the optional proxy/TZ entries
copied from the process environment, in source order. -/
def executorEnvironment (environment : List (String × String)) (id : UUID)
    (env : EnvVars) : List (String × String) :=
  let m := mapSet environment "ENVIRONMENT_ID" (uuidToString id)
  let m := if env.httpsProxy ≠ "" then
      mapSet (mapSet m "HTTPS_PROXY" env.httpsProxy) "https_proxy" env.httpsProxy else m
  let m := if env.httpProxy ≠ "" then
      mapSet (mapSet m "HTTP_PROXY" env.httpProxy) "http_proxy" env.httpProxy else m
  let m := if env.noProxy ≠ "" then
      mapSet (mapSet m "NO_PROXY" env.noProxy) "no_proxy" env.noProxy else m
  if env.tz ≠ "" then mapSet m "TZ" env.tz else m

/-- pkg/executionspace/executionspace.NewExecutorSpec.  The two generated
UUIDs (spec id and instruction identifier) and the propagated trace
headers are passed in by the caller model; the Go function obtains them
from uuid.New() and the OpenTelemetry carrier. -/
def NewExecutorSpec (url etosIdentifier testRunner : String)
    (environment : List (String × String)) (otelHeaders : List (String × String))
    (id identifier : UUID) (env : EnvVars) : ExecutorSpec :=
  let headers := otelHeaders.foldl (fun h p => mapSet h p.1 p.2)
    (mapSet [] "X-Etos-id" etosIdentifier)
  { request :=
      { url := url, method := "POST", dataId := id, headers := headers, timeout := 7200 }
    instructions :=
      { image := testRunner
        environment := executorEnvironment environment id env
        parameters := []
        identifier := identifier }
    id := id
    buildId := "" }

/-- pkg/executionspace/executionspace.CheckoutStatus. -/
inductive CheckoutStatus where
  | pending
  | failed
  | done
deriving DecidableEq, Repr

/-- pkg/executionspace/executionspace.ExecutionSpace (a checkout). -/
structure ExecutionSpace where
  id : UUID
  executors : List ExecutorSpec
  references : List String
  status : CheckoutStatus
  description : String
deriving DecidableEq, Repr

/-- executionspace.New: a fresh PENDING checkout. -/
def esNew (id : UUID) : ExecutionSpace :=
  ⟨id, [], [], .pending, "Checking out execution spaces"⟩

/-- ExecutionSpace.Add: append the executor and its id string. -/
def esAdd (es : ExecutionSpace) (ex : ExecutorSpec) : ExecutionSpace :=
  { es with
    executors := es.executors ++ [ex]
    references := es.references ++ [uuidToString ex.id] }

/-- The fake ExecutionSpace built by ExecutionSpace.Fail: only id, FAILED
status and the error text; executors and references are left nil. -/
def failSpace (id : UUID) (msg : String) : ExecutionSpace :=
  ⟨id, [], [], .failed, msg⟩

/-- A value stored under one etcd key: a serialized checkout, a serialized
executor spec, or the empty blob written by ExecutorSpec.Delete.  The
provider keeps checkouts and specs under distinct uuid keys, so a decode
against the wrong shape never happens in the scenarios modelled here. -/
inductive StoreValue where
  | space (e : ExecutionSpace)
  | spec (s : ExecutorSpec)
  | empty
deriving DecidableEq, Repr

/-- The etcd keyspace used by the provider: uuid key to blob. -/
def Store := UUID → Option StoreValue

/-- etcd Put: replace the blob under one key. -/
def Store.put (st : Store) (k : UUID) (v : StoreValue) : Store :=
  fun q => if q = k then some v else st q

/-- Errors surfaced by reading a key through the Etcd io.Reader: a missing
key or an empty blob yields io.EOF from the json decoder; anything else is
carried as text. -/
inductive DbErr where
  | eof
  | other (msg : String)
deriving DecidableEq, Repr

/-- The Error() text of a database read error (io.EOF renders as "EOF"). -/
def dbErrText : DbErr → String
  | .eof => "EOF"
  | .other m => m

/-- executionspace.LoadExecutorSpec through an Etcd reader: missing key or
empty blob is io.EOF; a spec blob decodes to the spec. -/
def loadSpec (v : Option StoreValue) : Except DbErr ExecutorSpec :=
  match v with
  | none => .error .eof
  | some .empty => .error .eof
  | some (.spec s) => .ok s
  | some (.space _) => .error (.other "json: wrong shape")

/-- executionspace.Load (a checkout) through an Etcd reader. -/
def loadSpace (v : Option StoreValue) : Except DbErr ExecutionSpace :=
  match v with
  | none => .error .eof
  | some .empty => .error .eof
  | some (.space e) => .ok e
  | some (.spec _) => .error (.other "json: wrong shape")

/-- provider.ExecutorConfig: the parameters the Start handler passes to
the fire-and-forget Checkout. -/
structure ExecutorConfig where
  amount : Nat
  testRunner : String
  checkoutId : UUID
  etosIdentifier : String
  environment : List (String × String)
deriving DecidableEq, Repr

/-- The oracles a Checkout run consumes: the UUIDs generated for each
fan-out iteration, the process environment, the propagated trace headers,
and the outcome of each database write in sequence (none = the etcd Put
succeeds, some msg = it fails with that error text). -/
structure CheckoutEnv where
  genId : Nat → UUID
  genIdent : Nat → UUID
  envVars : EnvVars
  otelHeaders : List (String × String)
  writeOk : Nat → Option String

/-- One Etcd.Write through an opened client: consumes the next write
outcome; on success the key is replaced. -/
def dbWrite (env : CheckoutEnv) (st : Store) (n : Nat) (k : UUID) (v : StoreValue) :
    Store × Nat × Option String :=
  match env.writeOk n with
  | none => (st.put k v, n + 1, none)
  | some msg => (st, n + 1, some msg)

/-- The error text ExecutorSpec.Save wraps around a write failure
(errors.Join renders the two messages newline-separated). -/
def executorWriteErr (m : String) : String :=
  "failed to write executor to database\n" ++ m

/-- The error text ExecutionSpace.Save wraps around a write failure. -/
def spaceWriteErr (m : String) : String :=
  "failed to write execution space to database\n" ++ m

/-- ExecutionSpace.Save: executors are nilled out before serializing. -/
def esSerialize (es : ExecutionSpace) : StoreValue :=
  .space { es with executors := [] }

/-- ExecutionSpace.Save through the client opened at the checkout id. -/
def esSave (env : CheckoutEnv) (es : ExecutionSpace) (st : Store) (n : Nat) :
    Store × Nat × Option String :=
  let r := dbWrite env st n es.id (esSerialize es)
  (r.1, r.2.1, r.2.2.map spaceWriteErr)

/-- ExecutionSpace.Fail: save a fake FAILED record carrying only the id
and the error text (its own write error is reported to the caller but the
store is left as is on failure). -/
def esFail (env : CheckoutEnv) (es : ExecutionSpace) (msg : String) (st : Store) (n : Nat) :
    Store × Nat × Option String :=
  esSave env (failSpace es.id msg) st n

/-- providerCore.SaveExecutor: serialize the spec under its own id. -/
def saveExecutorSpec (env : CheckoutEnv) (s : ExecutorSpec) (st : Store) (n : Nat) :
    Store × Nat × Option String :=
  let r := dbWrite env st n s.id (.spec s)
  (r.1, r.2.1, r.2.2.map executorWriteErr)

/-- The fan-out loop of providerCore.Checkout: while iterations remain,
build a spec, add it to the in-memory checkout, persist it (on failure:
write the FAILED fake and stop); after the last iteration mark the
checkout DONE and persist it (on failure: write the FAILED fake). -/
def checkoutFanout (env : CheckoutEnv) (url : String) (cfg : ExecutorConfig) :
    ExecutionSpace → Store → Nat → Nat → Nat → Store
  | es, st, n, _i, 0 =>
    let es2 := { es with
      status := CheckoutStatus.done
      description := "Execution spaces checked out successfully" }
    let r := esSave env es2 st n
    match r.2.2 with
    | none => r.1
    | some msg => (esFail env es2 msg r.1 r.2.1).1
  | es, st, n, i, remaining + 1 =>
    let ex := NewExecutorSpec url cfg.etosIdentifier cfg.testRunner cfg.environment
      env.otelHeaders (env.genId i) (env.genIdent i) env.envVars
    let es2 := esAdd es ex
    let r := saveExecutorSpec env ex st n
    match r.2.2 with
    | none => checkoutFanout env url cfg es2 r.1 r.2.1 (i + 1) remaining
    | some msg => (esFail env es2 msg r.1 r.2.1).1

/-- providerCore.Checkout: write the PENDING record (give up if that
fails), then fan out cfg.amount executor specs. -/
def checkout (env : CheckoutEnv) (url : String) (cfg : ExecutorConfig) (st : Store) : Store :=
  let es := esNew cfg.checkoutId
  let r := esSave env es st 0
  match r.2.2 with
  | some _ => r.1
  | none => checkoutFanout env url cfg es r.1 r.2.1 0 cfg.amount

/-- The reference-resolution loop of providerCore.Status.  Each reference
is parsed (the shadowed loop variable id receives the parse result, the
zero UUID on failure) and its spec is read; the first failure returns a
FAILED checkout built from that shadowed id. -/
def statusLoop (st : Store) : ExecutionSpace → List String → ExecutionSpace
  | es, [] => es
  | es, r :: rest =>
    match uuidParse r with
    | none => failSpace UUID.nil ("invalid UUID: " ++ r)
    | some u =>
      match loadSpec (st u) with
      | .error e => failSpace u (dbErrText e)
      | .ok ex => statusLoop st { es with executors := es.executors ++ [ex] } rest

/-- providerCore.Status: load the checkout (a FAILED record carrying the
requested id on failure), then join every referenced spec. -/
def statusRun (st : Store) (reqId : UUID) : ExecutionSpace :=
  match loadSpace (st reqId) with
  | .error e => failSpace reqId (dbErrText e)
  | .ok es => statusLoop st es es.references

/-- ExecutorSpec.Delete through an Etcd writer: a Write of nil bytes, i.e.
an etcd Put of the empty blob under the spec id.  The only failure in the
fault-free model is the guard against an unopened client (the zero id). -/
def executorDelete (st : Store) (id : UUID) : Except String Store :=
  if id = UUID.nil then .error "please create a new etcd client using Open"
  else .ok (st.put id .empty)

/-- providerCore.Checkin: delete every provided spec, stopping at the
first error. -/
def checkin (st : Store) : List ExecutorSpec → Except String Store
  | [] => .ok st
  | s :: rest =>
    match executorDelete st s.id with
    | .error e => .error e
    | .ok st2 => checkin st2 rest

/-- providerCore.Job: read the spec under the id and surface its buildId
(io.EOF propagates, flagging a missing or checked-in spec). -/
def jobOf (st : Store) (id : UUID) : Except DbErr String :=
  match loadSpec (st id) with
  | .error e => .error e
  | .ok s => .ok s.buildId

/-- An HTTP response as the provider handlers produce it. -/
structure HttpReply where
  status : Nat
  body : String
deriving DecidableEq, Repr

/-- The Error() text of a Go errors.Join aggregate: the member error
texts newline-separated. -/
def joinedErrText : List String → String
  | [] => ""
  | [e] => e
  | e :: rest => e ++ "\n" ++ joinedErrText rest

/-- The per-spec loop of ProviderServiceHandler.Stop: resolve the buildId
(io.EOF means already checked in: skip; other read errors are joined),
skip empty buildIds, stop the workload (failures joined).  stopO gives the
outcome of Executor().Stop per workload name (none = success). -/
def stopErrs (stopO : String → Option String) (st : Store) :
    List ExecutorSpec → List String
  | [] => []
  | s :: rest =>
    match jobOf st s.id with
    | .error .eof => stopErrs stopO st rest
    | .error (.other m) => m :: stopErrs stopO st rest
    | .ok bid =>
      if bid = "" then stopErrs stopO st rest
      else
        match stopO bid with
        | some e => e :: stopErrs stopO st rest
        | none => stopErrs stopO st rest

/-- ProviderServiceHandler.Stop: decode the posted specs (400 on decode
failure), stop each workload, and only when every stop succeeded check the
specs in; a non-empty joined error responds 500 with the joined text and
returns before Checkin runs. -/
def stopHandler (stopO : String → Option String) (st : Store)
    (specs : Option (List ExecutorSpec)) : HttpReply × Store :=
  match specs with
  | none => (⟨400, "failed to load executor spec"⟩, st)
  | some specs =>
    let errs := stopErrs stopO st specs
    if errs = [] then
      match checkin st specs with
      | .error e => (⟨500, "Failed to check in executors: " ++ e⟩, st)
      | .ok st2 => (⟨204, ""⟩, st2)
    else
      (⟨500, joinedErrText errs⟩, st)

/-- providerservice.StartRequest, restricted to the fields the core reads
(dataset carries the optional ETR branch/repo overrides). -/
structure StartRequest where
  minimumAmount : Nat
  maximumAmount : Nat
  testRunner : String
  environment : List (String × String)
  artifactIdentity : String
  etrBranch : String
  etrRepo : String
deriving DecidableEq, Repr

/-- ProviderServiceHandler.Start: verify the body (a decode failure or an
identity that is not a package-URL responds 400), coerce a zero
maximum_amount to minimum_amount, fold the dataset overrides into the
environment, dispatch the background Checkout with amount =
maximum_amount, and respond 200 with the fresh checkout id.  The second
component is the ExecutorConfig handed to the spawned Checkout (none when
no checkout was dispatched).  purlOk models packageurl.FromString. -/
def startHandler (body : Option StartRequest) (purlOk : String → Bool)
    (checkoutId : UUID) (identifier : String) : HttpReply × Option ExecutorConfig :=
  match body with
  | none => (⟨400, "start input could not be verified"⟩, none)
  | some req =>
    if purlOk req.artifactIdentity then
      let maxAmount := if req.maximumAmount = 0 then req.minimumAmount else req.maximumAmount
      let env1 := if req.etrBranch ≠ "" then
        mapSet req.environment "ETR_BRANCH" req.etrBranch else req.environment
      let env2 := if req.etrRepo ≠ "" then
        mapSet env1 "ETR_REPOSITORY" req.etrRepo else env1
      (⟨200, uuidToString checkoutId⟩,
       some { amount := maxAmount, testRunner := req.testRunner,
              checkoutId := checkoutId, etosIdentifier := identifier,
              environment := env2 })
    else
      (⟨400, "start input could not be verified"⟩, none)

/-- The cancellation token a call runs under: the (timeout-bounded)
request context, or a detached context.Background(). -/
inductive CtxKind where
  | request
  | background
deriving DecidableEq, Repr

/-- Which cleanup entry point of the executor was invoked. -/
inductive CleanupOp where
  | cancelCall
  | stopCall
deriving DecidableEq, Repr

/-- One cleanup invocation recorded by the ExecutorStart model: the
operation, the workload name it was given, and the context it ran under. -/
structure Cleanup where
  op : CleanupOp
  name : String
  ctx : CtxKind
deriving DecidableEq, Repr

/-- Outcomes of the collaborator round trips one ExecutorStart call
performs, in program order.  wait/save/barrier are none on success and
some error text on failure; the ctxErr flags say whether the bounded
request context had expired when the corresponding failure was handled
(selecting 408 over 500/400).  The Kubernetes executor's Wait returns the
job name it was given, so a successful wait yields buildID = the name
returned by Start. -/
structure ExecStartWorld where
  body : Option UUID
  spec : Except String ExecutorSpec
  ctxErrAtSpecRead : Bool
  start : Except String String
  ctxErrAtStart : Bool
  wait : Option String
  ctxErrAtWait : Bool
  save : Option String
  ctxErrAtSave : Bool
  barrier : Option String
  ctxErrAtBarrier : Bool

/-- ProviderServiceHandler.ExecutorStart: decode the id, load the spec,
start the workload, wait for readiness (Cancel on a detached context on
failure), persist the buildId (Stop detached on failure), then run the
started-sub-suite barrier (Stop detached on failure).  Returns the HTTP
reply and the cleanup invocations issued. -/
def executorStart (w : ExecStartWorld) : HttpReply × List Cleanup :=
  match w.body with
  | none => (⟨400, "could not read ID from post body"⟩, [])
  | some _ =>
    match w.spec with
    | .error _ =>
      if w.ctxErrAtSpecRead then
        (⟨408, "Timed out when reading the execution space configuration from database"⟩, [])
      else
        (⟨400, "Timed out when reading the execution space configuration from database"⟩, [])
    | .ok _ =>
      match w.start with
      | .error e =>
        if w.ctxErrAtStart then
          (⟨408, "Timed out when trying to start the test execution job"⟩, [])
        else
          (⟨500, "Error trying to start the test execution job: " ++ e⟩, [])
      | .ok name =>
        match w.wait with
        | some e =>
          if w.ctxErrAtWait then
            (⟨408, "Timed out when waiting for the test execution job to start - Error: " ++ e⟩,
             [⟨.cancelCall, name, .background⟩])
          else
            (⟨500, "Error when waiting for the test execution job to start - Error: " ++ e⟩,
             [⟨.cancelCall, name, .background⟩])
        | none =>
          match w.save with
          | some _ =>
            if w.ctxErrAtSave then
              (⟨408, "Timed out when saving the test execution configuration"⟩,
               [⟨.stopCall, name, .background⟩])
            else
              (⟨500, "Error when saving the test execution configuration"⟩,
               [⟨.stopCall, name, .background⟩])
          | none =>
            match w.barrier with
            | some e =>
              if w.ctxErrAtBarrier then
                (⟨408, "Timed out when waiting for the test execution job to initialize - Error: " ++ e⟩,
                 [⟨.stopCall, name, .background⟩])
              else
                (⟨400, "Error when waiting for the test execution job to initialize - Error: " ++ e⟩,
                 [⟨.stopCall, name, .background⟩])
            | none => (⟨204, ""⟩, [])

/-- An event type delivered by the pod watch stream. -/
inductive WatchEventKind where
  | added
  | modified
  | deleted
deriving DecidableEq, Repr

/-- A failure to establish the pod watch; probableEOF models
k8s.io/apimachinery net.IsProbableEOF on it. -/
structure WatchErr where
  msg : String
  probableEOF : Bool
deriving DecidableEq, Repr

/-- The NotFound error the Kubernetes API returns for deleting a job that
does not exist. -/
def jobNotFoundMsg (name : String) : String :=
  "jobs.batch " ++ name ++ " not found"

/-- The timeout error KubernetesExecutor.Stop builds when the context
expires before the delete event arrives. -/
def stopTimeoutMsg (name : String) : String :=
  "timed out waiting for Kubernetes job " ++ name ++ " to stop"

/-- KubernetesExecutor.Stop over an abstract cluster: jobs is the set of
job names present; deleting an absent job fails with the API's NotFound
error, which Stop returns as is.  After a successful delete, a watch
failure that looks like EOF is treated as success; otherwise Stop waits
for a Deleted event on the finite observed stream, timing out if none
arrives.  Returns none on success, some error text on failure. -/
def kubernetesStop (jobs : List String) (name : String)
    (watch : Except WatchErr (List WatchEventKind)) : Option String :=
  if name ∈ jobs then
    match watch with
    | .error e => if e.probableEOF then none else some e.msg
    | .ok evs => if evs.contains .deleted then none else some (stopTimeoutMsg name)
  else some (jobNotFoundMsg name)

/-- The broker's reaction to one publish attempt: delivery confirmed,
delivery nacked, or some transient fault (connection, channel, timeout). -/
inductive AttemptResult where
  | acked
  | nacked
  | fault (msg : String)
deriving DecidableEq, Repr

/-- Publisher.tryPublish distilled to its outcome: a nack returns the
plain error "message nacked"; faults return their own text. -/
def tryPublishOutcome : AttemptResult → Except String Unit
  | .acked => .ok ()
  | .nacked => .error "message nacked"
  | .fault m => .error m

/-- The retry.Do loop inside Publisher.Publish: every tryPublish error is
wrapped as retryable and retried with backoff; the loop only stops when
the caller's context is cancelled (fuel = attempts the context allows). -/
def publishRetry (o : Nat → AttemptResult) : Nat → Nat → Except String Unit
  | _, 0 => .error "context canceled"
  | i, fuel + 1 =>
    match tryPublishOutcome (o i) with
    | .ok _ => .ok ()
    | .error _ => publishRetry o (i + 1) fuel

/-- Publisher.Publish: run the retry loop from the first attempt. -/
def publish (o : Nat → AttemptResult) (fuel : Nat) : Except String Unit :=
  publishRetry o 0 fuel

/-- Model of Go strconv.Atoi: an optional sign followed by at least one
digit; none on any syntax error (where Go additionally returns the zero
value 0 as the int result). -/
def atoi (s : String) : Option Int :=
  match s.toList with
  | [] => none
  | '-' :: rest => (parseNatDigits rest).map (fun n => -(n : Int))
  | '+' :: rest => (parseNatDigits rest).map (fun n => (n : Int))
  | cs => (parseNatDigits cs).map (fun n => (n : Int))

/-- What an SSE GetEvents request resolves to before any events flow: a
404, a 400, or a live stream whose counter starts at the given id. -/
inductive SSEOutcome where
  | notFound
  | badRequest
  | stream (startId : Int)
deriving DecidableEq, Repr

/-- The new variant sse.SSEHandler.GetEvents (GET /sse/v1/events/:identifier).
An unparsable Last-Event-ID is logged and streaming continues with the
zero value strconv.Atoi returned, i.e. 0 (the absent header keeps the
default 1).  finished/urlOk/flusherOk model the runner-finished check, the
pod address resolution and the http.Flusher assertion. -/
def getEventsV1 (finished urlOk flusherOk : Bool) (lastEventID : String) : SSEOutcome :=
  if finished then .notFound
  else if !urlOk then .notFound
  else
    let lastId : Int := if lastEventID = "" then 1 else (atoi lastEventID).getD 0
    if !flusherOk then .notFound else .stream lastId

/-- The legacy variant sse.SSEHandler.GetEvents (GET /v1alpha/logs/:identifier):
an unparsable Last-Event-ID responds 400 Bad Request. -/
def getEventsV1alpha (finished urlOk flusherOk : Bool) (lastEventID : String) : SSEOutcome :=
  if finished then .notFound
  else if !urlOk then .notFound
  else if lastEventID = "" then
    (if !flusherOk then .notFound else .stream 1)
  else
    match atoi lastEventID with
    | none => .badRequest
    | some n => if !flusherOk then .notFound else .stream n

theorem executorEnvironment_envId (environment : List (String × String)) (id : UUID)
    (env : EnvVars) :
    mapGet (executorEnvironment environment id env) "ENVIRONMENT_ID"
      = some (uuidToString id) := by
  simp only [executorEnvironment]
  split_ifs <;> simp [mapGet_set_eq, mapGet_set_ne]

theorem newExecutorSpec_envId (url etosIdentifier testRunner : String)
    (environment otelHeaders : List (String × String)) (id identifier : UUID)
    (env : EnvVars) :
    mapGet (NewExecutorSpec url etosIdentifier testRunner environment otelHeaders
        id identifier env).instructions.environment "ENVIRONMENT_ID"
      = some (uuidToString (NewExecutorSpec url etosIdentifier testRunner environment
        otelHeaders id identifier env).id) := by
  show mapGet (executorEnvironment environment id env) "ENVIRONMENT_ID"
    = some (uuidToString id)
  exact executorEnvironment_envId environment id env

theorem put_keeps_spec (st : Store) (k : UUID) (e : ExecutionSpace) (u : UUID)
    (s : ExecutorSpec)
    (h : Store.put st k (StoreValue.space e) u = some (StoreValue.spec s)) :
    st u = some (StoreValue.spec s) := by
  unfold Store.put at h
  split at h
  · simp at h
  · exact h

theorem put_spec_cases (st : Store) (k : UUID) (ex : ExecutorSpec) (u : UUID)
    (s : ExecutorSpec)
    (h : Store.put st k (StoreValue.spec ex) u = some (StoreValue.spec s)) :
    st u = some (StoreValue.spec s) ∨ s = ex := by
  unfold Store.put at h
  split at h
  · right
    injection h with h1
    injection h1 with h2
    exact h2.symm
  · exact Or.inl h

theorem fanout_spec_values (env : CheckoutEnv) (url : String) (cfg : ExecutorConfig) :
    ∀ (remaining : Nat) (es : ExecutionSpace) (st : Store) (n i : Nat) (u : UUID)
      (s : ExecutorSpec),
      checkoutFanout env url cfg es st n i remaining u = some (StoreValue.spec s) →
      st u = some (StoreValue.spec s) ∨
        mapGet s.instructions.environment "ENVIRONMENT_ID" = some (uuidToString s.id) := by
  intro remaining
  induction remaining with
  | zero =>
    intro es st n i u s h
    rcases hw : env.writeOk n with _ | msg
    · simp only [checkoutFanout, esSave, dbWrite, hw, Option.map_none'] at h
      exact Or.inl (put_keeps_spec _ _ _ _ _ h)
    · simp only [checkoutFanout, esSave, esFail, dbWrite, hw, Option.map_some'] at h
      rcases hw2 : env.writeOk (n + 1) with _ | m2
      · simp only [hw2, Option.map_none'] at h
        exact Or.inl (put_keeps_spec _ _ _ _ _ h)
      · simp only [hw2, Option.map_some'] at h
        exact Or.inl h
  | succ remaining ih =>
    intro es st n i u s h
    rcases hw : env.writeOk n with _ | msg
    · simp only [checkoutFanout, saveExecutorSpec, dbWrite, hw, Option.map_none'] at h
      rcases ih _ _ _ _ _ _ h with h2 | h2
      · rcases put_spec_cases _ _ _ _ _ h2 with h3 | h3
        · exact Or.inl h3
        · subst h3
          exact Or.inr (newExecutorSpec_envId _ _ _ _ _ _ _ _)
      · exact Or.inr h2
    · simp only [checkoutFanout, saveExecutorSpec, esFail, esSave, dbWrite, hw,
        Option.map_some'] at h
      rcases hw2 : env.writeOk (n + 1) with _ | m2
      · simp only [hw2, Option.map_none'] at h
        exact Or.inl (put_keeps_spec _ _ _ _ _ h)
      · simp only [hw2, Option.map_some'] at h
        exact Or.inl h

theorem checkout_spec_values (env : CheckoutEnv) (url : String) (cfg : ExecutorConfig)
    (st : Store) (u : UUID) (s : ExecutorSpec)
    (h : checkout env url cfg st u = some (StoreValue.spec s)) :
    st u = some (StoreValue.spec s) ∨
      mapGet s.instructions.environment "ENVIRONMENT_ID" = some (uuidToString s.id) := by
  rcases hw : env.writeOk 0 with _ | msg
  · simp only [checkout, esSave, dbWrite, hw, Option.map_none'] at h
    rcases fanout_spec_values env url cfg cfg.amount _ _ _ _ _ _ h with h2 | h2
    · exact Or.inl (put_keeps_spec _ _ _ _ _ h2)
    · exact Or.inr h2
  · simp only [checkout, esSave, dbWrite, hw, Option.map_some'] at h
    exact Or.inl h

/-- A process environment with no proxy or TZ overrides. -/
def envVars0 : EnvVars := ⟨"", "", "", ""⟩

/-- A fault-free Checkout oracle generating spec ids 10, 11, ... -/
def envA : CheckoutEnv :=
  { genId := fun i => ⟨i + 10⟩
    genIdent := fun i => ⟨i + 100⟩
    envVars := envVars0
    otelHeaders := []
    writeOk := fun _ => none }

/-- A two-executor checkout request under checkout id 1. -/
def cfgA : ExecutorConfig :=
  { amount := 2, testRunner := "img", checkoutId := ⟨1⟩,
    etosIdentifier := "abc", environment := [] }

/-- The empty store. -/
def stEmpty : Store := fun _ => none

/-- The first spec the envA/cfgA run builds and persists. -/
def specA0 : ExecutorSpec := NewExecutorSpec "url" "abc" "img" [] [] ⟨10⟩ ⟨100⟩ envVars0

/-- C5: every ExecutorSpec built by NewExecutorSpec carries
ENVIRONMENT_ID = its own id rendered as a string in its instruction
environment, and consequently every spec blob a Checkout run adds to the
store satisfies the same equation (a spec found in the final store either
was there before the run or has the invariant). -/
theorem c5_environment_id_invariant :
    (∀ (url etosIdentifier testRunner : String)
       (environment otelHeaders : List (String × String)) (id identifier : UUID)
       (env : EnvVars),
       mapGet (NewExecutorSpec url etosIdentifier testRunner environment otelHeaders
           id identifier env).instructions.environment "ENVIRONMENT_ID"
         = some (uuidToString id))
    ∧ (∀ (env : CheckoutEnv) (url : String) (cfg : ExecutorConfig) (st : Store)
         (u : UUID) (s : ExecutorSpec),
         checkout env url cfg st u = some (StoreValue.spec s) →
         st u = some (StoreValue.spec s) ∨
           mapGet s.instructions.environment "ENVIRONMENT_ID" = some (uuidToString s.id)) := by
  constructor
  · intro url etosIdentifier testRunner environment otelHeaders id identifier env
    exact newExecutorSpec_envId url etosIdentifier testRunner environment otelHeaders
      id identifier env
  · intro env url cfg st u s h
    exact checkout_spec_values env url cfg st u s h

/-- Witness for C5 at a concrete run: the first persisted spec of the
envA/cfgA checkout satisfies the invariant. -/
theorem c5_witness :
    mapGet (NewExecutorSpec "url" "abc" "img" [] [] ⟨10⟩ ⟨100⟩ envVars0).instructions.environment
        "ENVIRONMENT_ID" = some (uuidToString (⟨10⟩ : UUID))
    ∧ (stEmpty ⟨10⟩ = some (StoreValue.spec specA0) ∨
        mapGet specA0.instructions.environment "ENVIRONMENT_ID"
          = some (uuidToString specA0.id)) := by
  refine ⟨c5_environment_id_invariant.1 "url" "abc" "img" [] [] ⟨10⟩ ⟨100⟩ envVars0, ?_⟩
  exact c5_environment_id_invariant.2 envA "url" cfgA stEmpty ⟨10⟩ specA0 (by decide)

/-- C7 (corrected): stopping an already-deleted workload is NOT treated as
success: the Kubernetes delete of an absent job fails with the API's
NotFound error and Stop returns it.  What Stop does tolerate is a pod
watch that fails with a probable EOF after a successful delete. -/
theorem c7_stop_missing_job_errors (jobs : List String) (name : String) :
    (∀ watch, name ∉ jobs → kubernetesStop jobs name watch = some (jobNotFoundMsg name))
    ∧ (∀ e : WatchErr, name ∈ jobs → e.probableEOF = true →
        kubernetesStop jobs name (.error e) = none) := by
  constructor
  · intro watch h
    simp [kubernetesStop, h]
  · intro e hm hp
    simp [kubernetesStop, hm, hp]

/-- Witness for C7: a concrete absent job yields the NotFound error; a
concrete EOF-looking watch failure after a successful delete is success. -/
theorem c7_witness :
    kubernetesStop [] "etr-1" (.ok []) = some (jobNotFoundMsg "etr-1")
    ∧ kubernetesStop ["etr-1"] "etr-1" (.error ⟨"eof", true⟩) = none := by
  refine ⟨(c7_stop_missing_job_errors [] "etr-1").1 (.ok []) (by decide), ?_⟩
  exact (c7_stop_missing_job_errors ["etr-1"] "etr-1").2 ⟨"eof", true⟩ (by decide) rfl

/-- Counterexample to C7 as stated: for the workload name etr-1 whose job
has already been deleted from the orchestrator (the cluster holds no
jobs), Stop does not return success: it returns the NotFound error. -/
theorem c7_counterexample :
    kubernetesStop [] "etr-1" (.ok []) ≠ none
    ∧ kubernetesStop [] "etr-1" (.ok []) = some (jobNotFoundMsg "etr-1") := by
  decide

/-- C8 (corrected): a broker nack is NOT surfaced as an unretried
BrokerRejected error.  tryPublish turns the nack into the plain error
"message nacked", and the Publish retry loop treats it like every other
fault: the attempt is retried (until the caller's context cancels). -/
theorem c8_nack_is_retried :
    tryPublishOutcome .nacked = .error "message nacked"
    ∧ ∀ (o : Nat → AttemptResult) (i fuel : Nat), o i = .nacked →
        publishRetry o i (fuel + 1) = publishRetry o (i + 1) fuel := by
  refine ⟨rfl, ?_⟩
  intro o i fuel h
  simp [publishRetry, h, tryPublishOutcome]

/-- Witness for C8: the nacked first attempt of a concrete outcome
sequence is retried as the next attempt. -/
theorem c8_witness :
    publishRetry (fun j => if j = 0 then AttemptResult.nacked else .acked) 0 5
      = publishRetry (fun j => if j = 0 then AttemptResult.nacked else .acked) 1 4
    ∧ tryPublishOutcome .nacked = .error "message nacked" := by
  refine ⟨?_, c8_nack_is_retried.1⟩
  exact c8_nack_is_retried.2 _ 0 4 (by decide)

/-- Counterexample to C8 as stated: with the broker nacking the first
attempt and acking the second, Publish returns success — the nack was
retried rather than surfaced as an error to the caller. -/
theorem c8_counterexample :
    publish (fun j => if j = 0 then AttemptResult.nacked else .acked) 5 = .ok ()
    ∧ tryPublishOutcome .nacked = .error "message nacked" := by
  exact ⟨rfl, rfl⟩

/-- C9 (corrected): the two SSE variants behave the opposite way from the
claim.  On a malformed Last-Event-ID the NEW variant
(GET /sse/v1/events/:identifier) logs the problem and keeps streaming —
from id 0, the zero value strconv.Atoi assigned, not the default 1 —
while the LEGACY variant (GET /v1alpha/logs/:identifier) responds 400. -/
theorem c9_last_event_id_swapped (s : String) (hne : s ≠ "") (hbad : atoi s = none) :
    getEventsV1 false true true s = .stream 0
    ∧ getEventsV1alpha false true true s = .badRequest := by
  constructor
  · simp [getEventsV1, hne, hbad]
  · simp [getEventsV1alpha, hne, hbad]

/-- Witness for C9 at the concrete malformed header value "abc". -/
theorem c9_witness :
    getEventsV1 false true true "abc" = .stream 0
    ∧ getEventsV1alpha false true true "abc" = .badRequest := by
  exact c9_last_event_id_swapped "abc" (by decide) (by decide)

/-- Counterexample to C9 as stated: with a live runner and the malformed
header "abc", the new variant does not respond 400 (it streams, from 0 —
not from the default 1 either), and the legacy variant does not stream:
it responds 400. -/
theorem c9_counterexample :
    getEventsV1 false true true "abc" ≠ .badRequest
    ∧ getEventsV1 false true true "abc" = .stream 0
    ∧ getEventsV1alpha false true true "abc" = .badRequest
    ∧ getEventsV1alpha false true true "abc" ≠ .stream 1 := by
  decide

/-- A minimal stored ExecutorSpec fixture with the given id and buildId. -/
def mkSpec (id : UUID) (bid : String) : ExecutorSpec :=
  { request := { url := "", method := "POST", dataId := id, headers := [], timeout := 7200 }
    instructions := { image := "img", environment := [], parameters := [], identifier := id }
    id := id
    buildId := bid }

/-- Stored spec fixture number one (id 2, workload b1). -/
def s1C : ExecutorSpec := mkSpec ⟨2⟩ "b1"

/-- Stored spec fixture number two (id 3, workload b2). -/
def s2C : ExecutorSpec := mkSpec ⟨3⟩ "b2"

/-- A store holding both spec fixtures. -/
def stC : Store := (stEmpty.put ⟨2⟩ (.spec s1C)).put ⟨3⟩ (.spec s2C)

/-- A Stop oracle failing for workload b1 and succeeding otherwise. -/
def stopOC : String → Option String :=
  fun b => if b = "b1" then some "stop failed" else none

/-- C2 (corrected): when stopping the first of two posted specs fails and
the second succeeds, the endpoint responds 500 with the joined error text,
but Checkin is never reached: the handler returns before it, so the
second spec is NOT deleted — the store is returned untouched and still
holds the second spec. -/
theorem c2_stop_partial_failure_skips_checkin
    (stopO : String → Option String) (st : Store) (s1 s2 : ExecutorSpec) (e1 : String)
    (h1 : st s1.id = some (StoreValue.spec s1))
    (h2 : st s2.id = some (StoreValue.spec s2))
    (hb1 : s1.buildId ≠ "")
    (hb2 : s2.buildId ≠ "")
    (hstop1 : stopO s1.buildId = some e1)
    (hstop2 : stopO s2.buildId = none) :
    stopHandler stopO st (some [s1, s2]) = (⟨500, e1⟩, st)
    ∧ (stopHandler stopO st (some [s1, s2])).2 s2.id = some (StoreValue.spec s2) := by
  have herrs : stopErrs stopO st [s1, s2] = [e1] := by
    simp [stopErrs, jobOf, loadSpec, h1, h2, hb1, hb2, hstop1, hstop2]
  have hmain : stopHandler stopO st (some [s1, s2]) = (⟨500, e1⟩, st) := by
    simp [stopHandler, herrs, joinedErrText]
  exact ⟨hmain, by rw [hmain]; exact h2⟩

/-- Witness for C2 at the concrete two-spec store and oracle. -/
theorem c2_witness :
    stopHandler stopOC stC (some [s1C, s2C]) = (⟨500, "stop failed"⟩, stC)
    ∧ (stopHandler stopOC stC (some [s1C, s2C])).2 s2C.id = some (StoreValue.spec s2C) := by
  exact c2_stop_partial_failure_skips_checkin stopOC stC s1C s2C "stop failed"
    (by decide) (by decide) (by decide) (by decide) (by decide) (by decide)

/-- Counterexample to C2 as stated: in the concrete two-spec scenario the
response is 500 with the joined error, yet the second spec is still in
the store afterwards — it was not deleted. -/
theorem c2_counterexample :
    (stopHandler stopOC stC (some [s1C, s2C])).1.status = 500
    ∧ (stopHandler stopOC stC (some [s1C, s2C])).1.body = "stop failed"
    ∧ (stopHandler stopOC stC (some [s1C, s2C])).2 s2C.id = some (StoreValue.spec s2C)
    ∧ (stopHandler stopOC stC (some [s1C, s2C])).2 s2C.id ≠ none := by
  decide

/-- C6 (corrected): Checkin does not remove the key.  ExecutorSpec.Delete
is a Write of nil bytes, i.e. an etcd Put of the empty blob: after a
successful Checkin the store still contains an entry under the spec's
key, holding the empty value; reading it back behaves as not-found
(io.EOF).  Checking in a spec whose key is absent is not an error (the
Put simply creates the empty entry), which this theorem states for every
starting store. -/
theorem c6_checkin_overwrites_with_empty (st : Store) (s : ExecutorSpec)
    (h : s.id ≠ UUID.nil) :
    checkin st [s] = .ok (st.put s.id .empty)
    ∧ (st.put s.id .empty) s.id = some StoreValue.empty
    ∧ loadSpec ((st.put s.id .empty) s.id) = .error .eof := by
  refine ⟨?_, ?_, ?_⟩
  · simp [checkin, executorDelete, h]
  · simp [Store.put]
  · simp [Store.put, loadSpec]

/-- Witness for C6 at the concrete stored spec fixture. -/
theorem c6_witness :
    checkin (stEmpty.put ⟨2⟩ (.spec s1C)) [s1C]
      = .ok ((stEmpty.put ⟨2⟩ (.spec s1C)).put s1C.id .empty)
    ∧ ((stEmpty.put ⟨2⟩ (.spec s1C)).put s1C.id .empty) s1C.id = some StoreValue.empty
    ∧ loadSpec (((stEmpty.put ⟨2⟩ (.spec s1C)).put s1C.id .empty) s1C.id)
      = .error .eof := by
  exact c6_checkin_overwrites_with_empty (stEmpty.put ⟨2⟩ (.spec s1C)) s1C (by decide)

/-- Counterexample to C6 as stated: checking in a stored spec succeeds,
and afterwards the store still contains an entry under the spec's key
(the empty blob) — the key is not gone. -/
theorem c6_counterexample :
    ((checkin (stEmpty.put ⟨2⟩ (.spec s1C)) [s1C]).toOption.map (fun st => st ⟨2⟩))
      = some (some StoreValue.empty)
    ∧ ((checkin (stEmpty.put ⟨2⟩ (.spec s1C)) [s1C]).toOption.map (fun st => st ⟨2⟩))
      ≠ some none := by
  decide

theorem checkout_amount_zero (env : CheckoutEnv) (url : String) (cfg : ExecutorConfig)
    (st : Store) (ha : cfg.amount = 0)
    (h0 : env.writeOk 0 = none) (h1 : env.writeOk 1 = none) :
    checkout env url cfg st cfg.checkoutId
      = some (.space ⟨cfg.checkoutId, [], [], .done,
          "Execution spaces checked out successfully"⟩) := by
  simp only [checkout, esSave, dbWrite, h0, Option.map_none', esSerialize, esNew, ha]
  simp only [checkoutFanout, esSave, dbWrite, h1, Option.map_none', esSerialize]
  simp [Store.put]

/-- A zero-amount start request with a valid package-URL identity. -/
def reqZero : StartRequest :=
  { minimumAmount := 0, maximumAmount := 0, testRunner := "img",
    environment := [], artifactIdentity := "pkg:generic/x@1",
    etrBranch := "", etrRepo := "" }

/-- A purl verifier accepting everything (reqZero's identity is valid). -/
def purlT : String → Bool := fun _ => true

/-- The ExecutorConfig the Start handler dispatches for reqZero. -/
def cfgZero : ExecutorConfig :=
  { amount := 0, testRunner := "img", checkoutId := ⟨1⟩,
    etosIdentifier := "abc", environment := [] }

/-- C3 (corrected): with minimum_amount = 0 and maximum_amount = 0 the
handler coerces maximum_amount to minimum_amount but does NOT respond
400: verifyStartInput only checks the body decode and the package-URL, so
the handler responds 200 and dispatches a Checkout with amount 0 — which
(when its two writes succeed) persists a checkout with status DONE and
empty references. -/
theorem c3_zero_amounts_accepted (req : StartRequest) (purlOk : String → Bool)
    (cid : UUID) (identifier url : String) (env : CheckoutEnv) (st : Store)
    (hmin : req.minimumAmount = 0) (hmax : req.maximumAmount = 0)
    (hpurl : purlOk req.artifactIdentity = true)
    (h0 : env.writeOk 0 = none) (h1 : env.writeOk 1 = none) :
    (startHandler (some req) purlOk cid identifier).1.status = 200
    ∧ ∀ cfg, (startHandler (some req) purlOk cid identifier).2 = some cfg →
        cfg.amount = 0 ∧
        checkout env url cfg st cfg.checkoutId
          = some (.space ⟨cfg.checkoutId, [], [], .done,
              "Execution spaces checked out successfully"⟩) := by
  constructor
  · simp [startHandler, hpurl]
  · intro cfg hcfg
    simp only [startHandler, hpurl, if_true] at hcfg
    injection hcfg with hcfg
    subst hcfg
    refine ⟨by simp [hmax, hmin], ?_⟩
    exact checkout_amount_zero env url _ st (by simp [hmax, hmin]) h0 h1

/-- Witness for C3: the concrete zero-amount request is accepted with 200
and its dispatched amount-0 checkout lands DONE with empty references. -/
theorem c3_witness :
    (startHandler (some reqZero) purlT ⟨1⟩ "abc").1.status = 200
    ∧ (cfgZero.amount = 0 ∧
        checkout envA "url" cfgZero stEmpty cfgZero.checkoutId
          = some (.space ⟨cfgZero.checkoutId, [], [], .done,
              "Execution spaces checked out successfully"⟩)) := by
  have h := c3_zero_amounts_accepted reqZero purlT ⟨1⟩ "abc" "url" envA stEmpty
    rfl rfl rfl rfl rfl
  exact ⟨h.1, h.2 cfgZero (by decide)⟩

/-- Counterexample to C3 as stated: the zero/zero request yields 200 (not
400), dispatches a checkout with amount 0, and that checkout persists a
DONE record whose references list is empty. -/
theorem c3_counterexample :
    (startHandler (some reqZero) purlT ⟨1⟩ "abc").1.status = 200
    ∧ (startHandler (some reqZero) purlT ⟨1⟩ "abc").1.status ≠ 400
    ∧ (startHandler (some reqZero) purlT ⟨1⟩ "abc").2 = some cfgZero
    ∧ checkout envA "url" cfgZero stEmpty ⟨1⟩
        = some (.space ⟨⟨1⟩, [], [], .done, "Execution spaces checked out successfully"⟩)
    ∧ (⟨⟨1⟩, [], [], .done, "Execution spaces checked out successfully"⟩
        : ExecutionSpace).references = [] := by
  decide

/-- A concrete ExecutorStart world: decode and spec read succeed, Start
returns etr-2, Wait fails without a context expiry. -/
def worldC : ExecStartWorld :=
  { body := some ⟨2⟩
    spec := .ok s1C
    ctxErrAtSpecRead := false
    start := .ok "etr-2"
    ctxErrAtStart := false
    wait := some "watch error"
    ctxErrAtWait := false
    save := none
    ctxErrAtSave := false
    barrier := none
    ctxErrAtBarrier := false }

/-- C4: whenever the workload Start succeeded and a later step of the
executor-start call fails (Wait for readiness, persisting the buildId, or
the started-sub-suite barrier), exactly one cleanup call is issued — a
Cancel or a Stop — and it receives the name returned by Start and runs
under a detached context (context.Background()), not one derived from the
request. -/
theorem c4_cleanup_exactly_once (w : ExecStartWorld) (b : UUID) (sp : ExecutorSpec)
    (name : String)
    (hb : w.body = some b) (hsp : w.spec = .ok sp) (hstart : w.start = .ok name)
    (hfail : w.wait ≠ none ∨ w.save ≠ none ∨ w.barrier ≠ none) :
    (executorStart w).2 = [⟨CleanupOp.cancelCall, name, .background⟩]
    ∨ (executorStart w).2 = [⟨CleanupOp.stopCall, name, .background⟩] := by
  rcases hwait : w.wait with _ | e
  · rcases hsave : w.save with _ | e2
    · rcases hbar : w.barrier with _ | e3
      · exfalso
        rcases hfail with h | h | h
        · exact h hwait
        · exact h hsave
        · exact h hbar
      · refine Or.inr ?_
        cases hcb : w.ctxErrAtBarrier <;>
          simp [executorStart, hb, hsp, hstart, hwait, hsave, hbar, hcb]
    · refine Or.inr ?_
      cases hcs : w.ctxErrAtSave <;>
        simp [executorStart, hb, hsp, hstart, hwait, hsave, hcs]
  · refine Or.inl ?_
    cases hcw : w.ctxErrAtWait <;>
      simp [executorStart, hb, hsp, hstart, hwait, hcw]

/-- Witness for C4: in the concrete world where Wait fails after a
successful Start of etr-2, the single cleanup is issued for etr-2 on the
detached context. -/
theorem c4_witness :
    (executorStart worldC).2 = [⟨CleanupOp.cancelCall, "etr-2", .background⟩]
    ∨ (executorStart worldC).2 = [⟨CleanupOp.stopCall, "etr-2", .background⟩] :=
  c4_cleanup_exactly_once worldC ⟨2⟩ s1C "etr-2" rfl rfl rfl (Or.inl (by decide))

/-- One reference of a checkout resolves: it parses as a UUID and the
store holds a decodable spec under it. -/
def refResolvesOk (st : Store) (r : String) : Prop :=
  ∃ u ex, uuidParse r = some u ∧ loadSpec (st u) = .ok ex

theorem statusLoop_fail (st : Store) (r : String) (rest : List String)
    (hfail : uuidParse r = none ∨
      ∃ u e, uuidParse r = some u ∧ loadSpec (st u) = .error e) :
    ∀ (pre : List String) (es : ExecutionSpace), (∀ q ∈ pre, refResolvesOk st q) →
      (statusLoop st es (pre ++ r :: rest)).status = .failed
      ∧ (statusLoop st es (pre ++ r :: rest)).id = (uuidParse r).getD UUID.nil := by
  intro pre
  induction pre with
  | nil =>
    intro es _
    rcases hfail with hp | ⟨u, e, hu, he⟩
    · simp [statusLoop, hp, failSpace]
    · simp [statusLoop, hu, he, failSpace]
  | cons q pre ih =>
    intro es hpre
    rcases hpre q (by simp) with ⟨u, ex, hu, hex⟩
    have hrest : ∀ p ∈ pre, refResolvesOk st p := fun p hp => hpre p (by simp [hp])
    simp only [List.cons_append, statusLoop, hu, hex]
    exact ih _ hrest

/-- C10: if Status fails while resolving one of the checkout's
references, the FAILED checkout it returns carries, in its id field, the
value of the shadowed loop variable — the failing reference's parsed id
when reading that spec from the store fails, and the zero UUID when the
reference does not parse — rather than the checkout id that was
requested. -/
theorem c10_status_failed_reference_id (st : Store) (reqId : UUID)
    (es : ExecutionSpace) (pre rest : List String) (r : String)
    (hload : loadSpace (st reqId) = .ok es)
    (hrefs : es.references = pre ++ r :: rest)
    (hpre : ∀ q ∈ pre, refResolvesOk st q)
    (hfail : uuidParse r = none ∨
      ∃ u e, uuidParse r = some u ∧ loadSpec (st u) = .error e) :
    (statusRun st reqId).status = .failed
    ∧ (statusRun st reqId).id = (uuidParse r).getD UUID.nil := by
  have h := statusLoop_fail st r rest hfail pre es hpre
  simp only [statusRun, hload]
  rw [hrefs]
  exact h

/-- The stored checkout fixture for the C10 witness: DONE with one
reference, 7, whose spec is absent from the store. -/
def esW : ExecutionSpace := ⟨⟨1⟩, [], ["7"], .done, "ok"⟩

/-- The store holding only the esW checkout under key 1. -/
def stW : Store := stEmpty.put ⟨1⟩ (.space esW)

/-- Witness for C10: resolving the reference 7 fails (no spec stored), so
the returned FAILED checkout's id is 7, not the requested id 1. -/
theorem c10_witness :
    (statusRun stW ⟨1⟩).status = .failed
    ∧ (statusRun stW ⟨1⟩).id = (uuidParse "7").getD UUID.nil := by
  exact c10_status_failed_reference_id stW ⟨1⟩ esW [] [] "7" (by decide) (by decide)
    (by simp) (Or.inr ⟨⟨7⟩, .eof, by decide, by decide⟩)

theorem fanout_fail_at (env : CheckoutEnv) (url : String) (cfg : ExecutorConfig)
    (msg : String) :
    ∀ (j remaining : Nat), j < remaining →
    ∀ (es : ExecutionSpace) (st : Store) (n i : Nat),
    (∀ m, m < j → env.writeOk (n + m) = none) →
    env.writeOk (n + j) = some msg →
    env.writeOk (n + j + 1) = none →
    checkoutFanout env url cfg es st n i remaining es.id
      = some (.space (failSpace es.id (executorWriteErr msg))) := by
  intro j
  induction j with
  | zero =>
    intro remaining hrem es st n i hok hfail hfw
    cases remaining with
    | zero => omega
    | succ r =>
      have h1 : env.writeOk n = some msg := by simpa using hfail
      have h2 : env.writeOk (n + 1) = none := by simpa using hfw
      simp only [checkoutFanout, saveExecutorSpec, dbWrite, h1, Option.map_some',
        esFail, esSave, esSerialize, h2, Option.map_none']
      simp [Store.put, esAdd, failSpace]
  | succ j ih =>
    intro remaining hrem es st n i hok hfail hfw
    cases remaining with
    | zero => omega
    | succ r =>
      have h1 : env.writeOk n = none := by simpa using hok 0 (by omega)
      simp only [checkoutFanout, saveExecutorSpec, dbWrite, h1, Option.map_none']
      have hok2 : ∀ m, m < j → env.writeOk (n + 1 + m) = none := by
        intro m hm
        have heq : n + 1 + m = n + (m + 1) := by omega
        rw [heq]
        exact hok (m + 1) (by omega)
      have hfail2 : env.writeOk (n + 1 + j) = some msg := by
        have heq : n + 1 + j = n + (j + 1) := by omega
        rw [heq]
        exact hfail
      have hfw2 : env.writeOk (n + 1 + j + 1) = none := by
        have heq : n + 1 + j + 1 = n + (j + 1) + 1 := by omega
        rw [heq]
        exact hfw
      exact ih r (by omega) _ _ (n + 1) (i + 1) hok2 hfail2 hfw2

/-- C1 (corrected): when persisting an ExecutorSpec fails mid-fan-out
(writes 0..j succeed — the PENDING record and the first j specs — the
persist of spec j fails, and the subsequent failure write succeeds), the
checkout record stored afterwards has status FAILED and the save error
text as description, but its references list is EMPTY:
ExecutionSpace.Fail writes a fresh record that drops the accumulated
references, so the ids of the already-persisted specs are NOT listed
(those specs remain in the store unreferenced, as the counterexample
shows concretely). -/
theorem c1_checkout_fail_empty_references (env : CheckoutEnv) (url : String)
    (cfg : ExecutorConfig) (st : Store) (j : Nat) (msg : String)
    (hj : j < cfg.amount)
    (hok : ∀ m, m ≤ j → env.writeOk m = none)
    (hfail : env.writeOk (j + 1) = some msg)
    (hfw : env.writeOk (j + 2) = none) :
    checkout env url cfg st cfg.checkoutId
      = some (.space (failSpace cfg.checkoutId (executorWriteErr msg)))
    ∧ (failSpace cfg.checkoutId (executorWriteErr msg)).references = [] := by
  refine ⟨?_, rfl⟩
  have h0 : env.writeOk 0 = none := hok 0 (by omega)
  simp only [checkout, esSave, dbWrite, h0, Option.map_none']
  have hok1 : ∀ m, m < j → env.writeOk (1 + m) = none := by
    intro m hm
    have heq : 1 + m = m + 1 := by omega
    rw [heq]
    exact hok (m + 1) (by omega)
  have hfail1 : env.writeOk (1 + j) = some msg := by
    have heq : 1 + j = j + 1 := by omega
    rw [heq]
    exact hfail
  have hfw1 : env.writeOk (1 + j + 1) = none := by
    have heq : 1 + j + 1 = j + 2 := by omega
    rw [heq]
    exact hfw
  exact fanout_fail_at env url cfg msg j cfg.amount hj (esNew cfg.checkoutId)
    _ 1 0 hok1 hfail1 hfw1

/-- The Checkout oracle whose third write (the second spec persist)
fails. -/
def envB : CheckoutEnv :=
  { envA with writeOk := fun n => if n = 2 then some "disk error" else none }

/-- Witness for C1 at the concrete faulty run (amount 2, spec 1 fails). -/
theorem c1_witness :
    checkout envB "url" cfgA stEmpty cfgA.checkoutId
      = some (.space (failSpace cfgA.checkoutId (executorWriteErr "disk error")))
    ∧ (failSpace cfgA.checkoutId (executorWriteErr "disk error")).references = [] := by
  refine c1_checkout_fail_empty_references envB "url" cfgA stEmpty 1 "disk error"
    (by decide) ?_ (by decide) (by decide)
  intro m hm
  have hne : m ≠ 2 := by omega
  simp [envB, envA, hne]

/-- Counterexample to C1 as stated: in the concrete run the first spec
(id 10) was persisted before the failure and is still in the store, yet
the stored FAILED checkout's references list is empty — the persisted
spec's id is not listed. -/
theorem c1_counterexample :
    checkout envB "url" cfgA stEmpty ⟨1⟩
      = some (.space (failSpace ⟨1⟩ (executorWriteErr "disk error")))
    ∧ checkout envB "url" cfgA stEmpty ⟨10⟩ = some (.spec specA0)
    ∧ (failSpace ⟨1⟩ (executorWriteErr "disk error")).references = []
    ∧ ¬ (uuidToString (⟨10⟩ : UUID)
          ∈ (failSpace ⟨1⟩ (executorWriteErr "disk error")).references) := by
  decide
